import Mathlib

/-!
Verification of the Smart Fridge Culinary Assistant repository.

The development shallowly embeds the two pieces of logic of the repository:

* the recipe acquisition pipeline (src/App.tsx, handleImageUpload) together
  with the AI gateway client (src/services/geminiService.ts), and
* the narration state machine (src/components/RecipeModal.tsx).

External service calls are modelled by an environment that fixes the outcome
of each call (an exception, or a response value); the embedded functions are
the deterministic rest of the code.  JavaScript strings are modelled through
the character list underlying Lean strings, with the ASCII fragment of
toLowerCase; split, trim and includes are the character-list versions of the
JavaScript operations used by the source.

React semantics used by the narration model: after an event handler or a
speech callback updates component state, the effect hook of RecipeModal
(lines 30-45) runs on the new state.  That effect, when isSpeaking is set and
the step index is in range, first calls stopSpeaking - which cancels any
active utterance and unconditionally resets isSpeaking to false (line 21) -
and then submits the utterance for the current step.  The speech synthesis
state is modelled by the optional index of the queued utterance and the
paused flag; the list of submitted narration requests is logged.
-/

/-! ## JavaScript string primitives -/

/-- ASCII model of String.prototype.toLowerCase, one character: this is
exactly the core function Char.toLower restated on Nat codes. -/
def jsCharToLower (c : Char) : Char :=
  if c.toNat ≥ 65 ∧ c.toNat ≤ 90 then Char.ofNat (c.toNat + 32) else c

/-- Model of String.prototype.toLowerCase (ASCII fragment). -/
def jsToLowerCase (s : String) : String :=
  ⟨s.data.map jsCharToLower⟩

/-- Model of String.prototype.trim: drop whitespace from both ends. -/
def jsTrim (s : String) : String :=
  ⟨(s.data.dropWhile Char.isWhitespace).rdropWhile Char.isWhitespace⟩

/-- Model of String.prototype.split with separator a comma. -/
def jsSplitOnComma (s : String) : List String :=
  (s.data.splitOn ',').map String.mk

/-- Model of String.prototype.includes: substring containment. -/
def jsIncludes (hay needle : String) : Bool :=
  decide (needle.data <:+: hay.data)

/-! ## Data model (src/types.ts) -/

structure RecipeIngredient where
  name : String
  quantity : String
deriving Repr, DecidableEq

structure Recipe where
  name : String
  difficulty : String
  prepTime : String
  calories : Int
  ingredients : List RecipeIngredient
  instructions : List String
  imageUrl : Option String := none
deriving Repr, DecidableEq

/-! ## AI gateway client (src/services/geminiService.ts) -/

/-- Post-processing of the ingredient extraction response text
(geminiService.ts line 44): split on comma, trim, lowercase, drop entries
that are empty strings (filter(Boolean)). -/
def parseIngredients (ingredientsText : String) : List String :=
  ((jsSplitOnComma ingredientsText).map (fun item => jsToLowerCase (jsTrim item))).filter
    (fun item => item != "")

/-- Shallow embedding of analyzeFridgeContents (geminiService.ts lines 31-49).
The service call either raises (modelled by Except.error) or returns a
response whose text field may be absent; an absent or empty text is falsy in
JavaScript, so the guard on line 42 returns the empty list for both.  Any
exception is replaced by the fixed gateway message of line 47. -/
def analyzeFridgeContents (serviceCall : Except String (Option String)) :
    Except String (List String) :=
  match serviceCall with
  | .error _ => .error "Failed to analyze image with Gemini API."
  | .ok ingredientsText =>
    match ingredientsText with
    | none => .ok []
    | some t => if t = "" then .ok [] else .ok (parseIngredients t)

structure InlineData where
  data : String
  mimeType : String
deriving Repr, DecidableEq

structure ResponsePart where
  text : Option String := none
  inlineData : Option InlineData := none
deriving Repr, DecidableEq

/-- The loop of geminiService.ts lines 125-130: the first part of the
response carrying inline data. -/
def firstInlineData : List ResponsePart → Option InlineData
  | [] => none
  | part :: parts =>
    match part.inlineData with
    | some d => some d
    | none => firstInlineData parts

/-- Shallow embedding of generateRecipeImage (geminiService.ts lines 112-137).
The inner throw of line 131 is caught by the same catch block as a transport
failure, so both produce the message of line 135. -/
def generateRecipeImage (recipeName : String)
    (serviceCall : Except String (List ResponsePart)) : Except String String :=
  match serviceCall with
  | .error _ => .error ("Failed to generate an image for the recipe: " ++ recipeName ++ ".")
  | .ok parts =>
    match firstInlineData parts with
    | some d => .ok ("data:image/png;base64," ++ d.data)
    | none => .error ("Failed to generate an image for the recipe: " ++ recipeName ++ ".")

/-- Whether an image synthesis call succeeds: the call returns normally and
some part of the response carries inline data.  generateRecipeImage succeeds
exactly under this condition, whatever the recipe name. -/
def imageSynthesisOk (serviceCall : Except String (List ResponsePart)) : Bool :=
  match serviceCall with
  | .error _ => false
  | .ok parts => (firstInlineData parts).isSome

/-! ## Recipe acquisition pipeline (src/App.tsx, handleImageUpload) -/

/-- Outcomes of the external calls of one pipeline run: the ingredient
extraction response, the recipe generation outcome per ingredient list, and
the image synthesis response of the call issued for the recipe at each
position of the generated list. -/
structure GatewayEnv where
  analyzeResp : Except String (Option String)
  recipesResp : List String → Except String (List Recipe)
  imageResp : Nat → Except String (List ResponsePart)

/-- The fan-out of App.tsx lines 112-122: one generateRecipeImage call per
generated recipe; on success the image reference is attached, on failure the
recipe is returned unchanged (lines 117-120). -/
def recipesWithImages (env : GatewayEnv) (generatedRecipes : List Recipe) : List Recipe :=
  generatedRecipes.mapIdx (fun i recipe =>
    match generateRecipeImage recipe.name (env.imageResp i) with
    | .ok imageUrl => { recipe with imageUrl := some imageUrl }
    | .error _ => recipe)

/-- The component state handleImageUpload leaves behind: the final appState,
the error message (setError), and the recipe list passed to setRecipes -
none when setRecipes was not reached. -/
structure AppResult where
  appState : String
  errorMsg : Option String
  recipesSet : Option (List Recipe)
deriving Repr, DecidableEq

/-- Shallow embedding of handleImageUpload (App.tsx lines 102-130): awaits
ingredient extraction, then recipe generation, then the image fan-out; the
catch block of lines 126-129 records the error message and returns to the
initial screen without touching the recipe list. -/
def handleImageUpload (env : GatewayEnv) : AppResult :=
  match analyzeFridgeContents env.analyzeResp with
  | .error e => ⟨"initial", some e, none⟩
  | .ok ingredients =>
    match env.recipesResp ingredients with
    | .error e => ⟨"initial", some e, none⟩
    | .ok generatedRecipes =>
      ⟨"results", none, some (recipesWithImages env generatedRecipes)⟩

/-! ## Ingredient ownership (src/components/RecipeModal.tsx line 110) -/

/-- Shallow embedding of the isOwned computation: some identified ingredient
string is contained in the lowercased recipe ingredient name.  The
identified string itself is not lowercased by the source. -/
def isOwned (ownedIngredients : List String) (ingredientName : String) : Bool :=
  ownedIngredients.any (fun ownedIng => jsIncludes (jsToLowerCase ingredientName) ownedIng)

/-! ## Narration state machine (src/components/RecipeModal.tsx) -/

/-- Narration state: the two React state cells of RecipeModal (isSpeaking,
currentStepIndex), the speech synthesis state (the step index of the queued
utterance if any, and the paused flag), and the log of step indices for
which a narration request was submitted, oldest first. -/
structure NarrState where
  isSpeaking : Bool
  currentStepIndex : Nat
  utterance : Option Nat
  synthPaused : Bool
  requests : List Nat
deriving Repr, DecidableEq

/-- speechSynthesis.cancel(): the queued utterance is discarded without
firing its completion callback. -/
def synthCancel (s : NarrState) : NarrState :=
  { s with utterance := none }

/-- stopSpeaking (RecipeModal.tsx lines 17-22): cancel if the synthesizer is
speaking, then unconditionally reset isSpeaking. -/
def stopSpeaking (s : NarrState) : NarrState :=
  { (if s.utterance.isSome then synthCancel s else s) with isSpeaking := false }

/-- speechSynthesis.speak for the step utterance (RecipeModal.tsx lines
33-43): queue the utterance and log the request. -/
def speakStep (i : Nat) (s : NarrState) : NarrState :=
  { s with utterance := some i, requests := s.requests ++ [i] }

/-- The effect hook of RecipeModal.tsx lines 30-45, run on the state left by
a handler or callback: when isSpeaking is set and the step index is in
range, it calls stopSpeaking and then speaks the current step. -/
def runNarrationEffect (r : Recipe) (s : NarrState) : NarrState :=
  if s.isSpeaking ∧ s.currentStepIndex < r.instructions.length then
    speakStep s.currentStepIndex (stopSpeaking s)
  else s

/-- handlePlayPause (RecipeModal.tsx lines 49-63). -/
def handlePlayPause (r : Recipe) (s : NarrState) : NarrState :=
  if s.isSpeaking then
    { s with synthPaused := true, isSpeaking := false }
  else
    { (if s.synthPaused then
        { s with synthPaused := false }
      else if r.instructions.length ≤ s.currentStepIndex then
        { s with currentStepIndex := 0 }
      else s) with isSpeaking := true }

/-- handleStop (RecipeModal.tsx lines 65-68). -/
def handleStop (s : NarrState) : NarrState :=
  { stopSpeaking s with currentStepIndex := 0 }

/-- The utterance completion callback (RecipeModal.tsx lines 35-41), enabled
when an utterance is queued and the synthesizer is not paused.  The callback
closes over the step index of the render that created the utterance, which
is the index the utterance was created for. -/
def onUtteranceEnd (r : Recipe) (s : NarrState) : NarrState :=
  match s.utterance with
  | none => s
  | some i =>
    if s.synthPaused then s
    else
      { (if i + 1 < r.instructions.length then
          { s with currentStepIndex := s.currentStepIndex + 1 }
        else
          { s with isSpeaking := false }) with utterance := none }

inductive NarrEvent where
  | playPause
  | stopButton
  | utteranceEnd
deriving Repr, DecidableEq

/-- One observable transition: the handler or callback, followed by the
effect hook run React schedules on the updated state. -/
def narrStep (r : Recipe) (s : NarrState) : NarrEvent → NarrState
  | .playPause => runNarrationEffect r (handlePlayPause r s)
  | .stopButton => runNarrationEffect r (handleStop s)
  | .utteranceEnd => runNarrationEffect r (onUtteranceEnd r s)

/-- Initial narration state (RecipeModal.tsx lines 13-14). -/
def initialNarrState : NarrState :=
  ⟨false, 0, none, false, []⟩

/-- The state after a sequence of user actions and completion callbacks. -/
def narrRun (r : Recipe) (events : List NarrEvent) : NarrState :=
  events.foldl (narrStep r) initialNarrState

/-! ## Character-level lemmas for the string primitives -/

theorem jsCharToLower_idem (c : Char) :
    jsCharToLower (jsCharToLower c) = jsCharToLower c := by
  unfold jsCharToLower
  by_cases h : c.toNat ≥ 65 ∧ c.toNat ≤ 90
  · rw [if_pos h]
    obtain ⟨h1, h2⟩ := h
    interval_cases h : c.toNat <;> simp_all
  · rw [if_neg h, if_neg h]

theorem isWhitespace_ofNat_ascii_lower (n : Nat) (h1 : 97 ≤ n) (h2 : n ≤ 122) :
    (Char.ofNat n).isWhitespace = false := by
  interval_cases n <;> decide

theorem isWhitespace_ascii_upper (c : Char) (h1 : 65 ≤ c.toNat) (h2 : c.toNat ≤ 90) :
    c.isWhitespace = false := by
  have hs : c ≠ ' ' := fun e => by subst e; exact absurd h1 (by decide)
  have ht : c ≠ '\t' := fun e => by subst e; exact absurd h1 (by decide)
  have hr : c ≠ '\r' := fun e => by subst e; exact absurd h1 (by decide)
  have hn : c ≠ '\n' := fun e => by subst e; exact absurd h1 (by decide)
  simp [Char.isWhitespace, hs, ht, hr, hn]

theorem isWhitespace_jsCharToLower (c : Char) :
    (jsCharToLower c).isWhitespace = c.isWhitespace := by
  unfold jsCharToLower
  by_cases h : c.toNat ≥ 65 ∧ c.toNat ≤ 90
  · obtain ⟨h1, h2⟩ := h
    rw [if_pos ⟨h1, h2⟩, isWhitespace_ascii_upper c h1 h2]
    exact isWhitespace_ofNat_ascii_lower _ (by omega) (by omega)
  · rw [if_neg h]

/-! ## List-level lemmas about trimming -/

theorem dropWhile_eq_self_of_head (p : Char → Bool) (l : List Char)
    (h : ∀ c, l.head? = some c → p c = false) : l.dropWhile p = l := by
  cases l with
  | nil => rfl
  | cons x xs => simp [List.dropWhile_cons, h x rfl]

theorem head?_dropWhile_false (p : Char → Bool) (l : List Char) (c : Char)
    (h : (l.dropWhile p).head? = some c) : p c = false := by
  have hw := List.head?_dropWhile_not p l
  rw [h] at hw
  exact hw

theorem rdropWhile_eq_self_of_getLast (p : Char → Bool) (l : List Char)
    (h : ∀ c, l.getLast? = some c → p c = false) : l.rdropWhile p = l := by
  rw [List.rdropWhile_eq_self_iff]
  intro hl
  have hw := h (l.getLast hl) (List.getLast?_eq_getLast l hl)
  simp [hw]

theorem getLast?_rdropWhile_false (p : Char → Bool) (l : List Char) (c : Char)
    (h : (l.rdropWhile p).getLast? = some c) : p c = false := by
  have hne : l.rdropWhile p ≠ [] := by intro e; rw [e] at h; cases h
  have hw := List.rdropWhile_last_not (p := p) (l := l) hne
  rw [List.getLast?_eq_getLast _ hne] at h
  cases h
  simpa using hw

theorem head?_rdropWhile (p : Char → Bool) (l : List Char) (c : Char)
    (h : (l.rdropWhile p).head? = some c) : l.head? = some c := by
  have hpre := List.rdropWhile_prefix (p := p) (l := l)
  obtain ⟨t, ht⟩ := hpre
  cases hr : l.rdropWhile p with
  | nil => rw [hr] at h; cases h
  | cons x xs =>
    rw [hr] at h ht
    cases h
    rw [← ht]
    rfl

theorem head?_jsTrim_data (s : String) (c : Char)
    (h : (jsTrim s).data.head? = some c) : c.isWhitespace = false :=
  head?_dropWhile_false _ _ _ (head?_rdropWhile _ _ _ h)

theorem getLast?_jsTrim_data (s : String) (c : Char)
    (h : (jsTrim s).data.getLast? = some c) : c.isWhitespace = false :=
  getLast?_rdropWhile_false _ _ _ h

theorem jsTrim_after_lower_trim (s : String) :
    jsTrim (jsToLowerCase (jsTrim s)) = jsToLowerCase (jsTrim s) := by
  have hdrop : ((jsTrim s).data.map jsCharToLower).dropWhile Char.isWhitespace
      = (jsTrim s).data.map jsCharToLower := by
    apply dropWhile_eq_self_of_head
    intro c hc
    rw [List.head?_map] at hc
    cases h0 : (jsTrim s).data.head? with
    | none => rw [h0] at hc; cases hc
    | some c0 =>
      rw [h0] at hc
      cases hc
      rw [isWhitespace_jsCharToLower]
      exact head?_jsTrim_data s c0 h0
  have hrdrop : ((jsTrim s).data.map jsCharToLower).rdropWhile Char.isWhitespace
      = (jsTrim s).data.map jsCharToLower := by
    apply rdropWhile_eq_self_of_getLast
    intro c hc
    rw [List.getLast?_map] at hc
    cases h0 : (jsTrim s).data.getLast? with
    | none => rw [h0] at hc; cases hc
    | some c0 =>
      rw [h0] at hc
      cases hc
      rw [isWhitespace_jsCharToLower]
      exact getLast?_jsTrim_data s c0 h0
  have hdata : (((jsToLowerCase (jsTrim s)).data.dropWhile Char.isWhitespace).rdropWhile
      Char.isWhitespace) = (jsToLowerCase (jsTrim s)).data := by
    show (((jsTrim s).data.map jsCharToLower).dropWhile Char.isWhitespace).rdropWhile
        Char.isWhitespace = (jsTrim s).data.map jsCharToLower
    rw [hdrop, hrdrop]
  exact congrArg String.mk hdata

theorem jsToLowerCase_idem (s : String) :
    jsToLowerCase (jsToLowerCase s) = jsToLowerCase s := by
  apply congrArg String.mk
  show (s.data.map jsCharToLower).map jsCharToLower = s.data.map jsCharToLower
  rw [List.map_map]
  exact List.map_congr_left (fun c _ => jsCharToLower_idem c)

theorem mem_parseIngredients (t s : String) (h : s ∈ parseIngredients t) :
    s ≠ "" ∧ jsTrim s = s ∧ jsToLowerCase s = s := by
  unfold parseIngredients at h
  rw [List.mem_filter] at h
  obtain ⟨hmem, hne⟩ := h
  rw [List.mem_map] at hmem
  obtain ⟨item, _, rfl⟩ := hmem
  exact ⟨by simpa using hne, jsTrim_after_lower_trim item, jsToLowerCase_idem (jsTrim item)⟩

/-! ## Claim C3 -/

/-- Claim C3 counterexample: a service response whose text is present but
empty is not an error; analyzeFridgeContents returns a successful empty
ingredient list (geminiService.ts line 42), contradicting the claim that a
response with no text fails with a GatewayError. -/
theorem analyzeFridgeContents_empty_text_counterexample :
    analyzeFridgeContents (Except.ok (some "")) = Except.ok [] ∧
    analyzeFridgeContents (Except.ok none) = Except.ok [] ∧
    ¬ ∃ e, analyzeFridgeContents (Except.ok (some "")) = Except.error e := by
  refine ⟨rfl, rfl, ?_⟩
  rintro ⟨e, he⟩
  rw [show analyzeFridgeContents (Except.ok (some "")) = Except.ok [] from rfl] at he
  exact Except.noConfusion he

/-- Claim C3 amended: analyzeFridgeContents fails - always with the fixed
gateway message - exactly when the external service call raises; a response
with no text, whether the text field is absent or the empty string, yields a
successful empty ingredient list rather than an error. -/
theorem analyzeFridgeContents_error_characterization :
    (∀ resp, (∃ e, analyzeFridgeContents resp = Except.error e) ↔
      ∃ e, resp = Except.error e) ∧
    (∀ e, analyzeFridgeContents (Except.error e)
      = Except.error "Failed to analyze image with Gemini API.") ∧
    analyzeFridgeContents (Except.ok none) = Except.ok [] ∧
    analyzeFridgeContents (Except.ok (some "")) = Except.ok [] := by
  refine ⟨?_, fun e => rfl, rfl, rfl⟩
  intro resp
  constructor
  · rintro ⟨e, he⟩
    cases resp with
    | error e0 => exact ⟨e0, rfl⟩
    | ok txt =>
      exfalso
      cases txt with
      | none => cases he
      | some t =>
        have he2 : (if t = "" then (Except.ok [] : Except String (List String))
            else Except.ok (parseIngredients t)) = Except.error e := he
        by_cases ht : t = ""
        · rw [if_pos ht] at he2; exact Except.noConfusion he2
        · rw [if_neg ht] at he2; exact Except.noConfusion he2
  · rintro ⟨e, rfl⟩
    exact ⟨"Failed to analyze image with Gemini API.", rfl⟩

/-! ## Claim C7 -/

/-- Stated from the specification words: the comma separated segments of the
response text after trimming, lowercasing, and dropping empty entries, in
order.  Compared below with parseIngredients, which is translated from the
source. -/
def specIngredientSegments (t : String) : List String :=
  ((jsSplitOnComma t).map (fun seg => jsToLowerCase (jsTrim seg))).filter
    (fun seg => seg != "")

/-- Claim C7: for every non-empty text response, analyzeFridgeContents
returns exactly the comma separated segments of the text after trimming,
lowercasing and dropping empty entries, in order; every returned element is
a non-empty, trimmed, lowercase string (trimmed and lowercase read as fixed
points of the trim and toLowerCase models). -/
theorem extracted_ingredients_normalized (t : String) (h : t ≠ "") :
    analyzeFridgeContents (Except.ok (some t)) = Except.ok (parseIngredients t) ∧
    parseIngredients t = specIngredientSegments t ∧
    ∀ s ∈ parseIngredients t, s ≠ "" ∧ jsTrim s = s ∧ jsToLowerCase s = s := by
  refine ⟨?_, rfl, fun s hs => mem_parseIngredients t s hs⟩
  show (if t = "" then (Except.ok [] : Except String (List String))
      else Except.ok (parseIngredients t)) = Except.ok (parseIngredients t)
  rw [if_neg h]

/-- Claim C7 witness: a concrete messy response text. -/
theorem extracted_ingredients_normalized_witness :
    analyzeFridgeContents (Except.ok (some " Eggs, Milk ,,CHEDDAR cheese"))
      = Except.ok ["eggs", "milk", "cheddar cheese"] ∧
    ∀ s ∈ parseIngredients " Eggs, Milk ,,CHEDDAR cheese",
      s ≠ "" ∧ jsTrim s = s ∧ jsToLowerCase s = s := by
  have h := extracted_ingredients_normalized " Eggs, Milk ,,CHEDDAR cheese" (by decide)
  refine ⟨?_, h.2.2⟩
  rw [h.1]
  exact congrArg Except.ok (by decide)

/-! ## Claim C8 -/

/-- Claim C8 counterexample: ownership is not insensitive to the casing of
the identified ingredient string.  The recipe ingredient name Milk contains
the identified string MILK up to case, but the source lowercases only the
name (RecipeModal.tsx line 110), so the comparison fails. -/
theorem isOwned_case_sensitivity_counterexample :
    isOwned ["MILK"] "Milk" = false ∧
    jsIncludes (jsToLowerCase "Milk") (jsToLowerCase "MILK") = true := by
  constructor <;> decide

/-- Claim C8 amended: an ingredient is owned exactly when its lowercased
name contains some identified string verbatim.  The comparison is
insensitive to the casing of the recipe ingredient name - any name with the
same lowercasing classifies identically - and it coincides with
case-insensitive containment exactly when the identified strings are
already lowercase, as the ones produced by ingredient extraction are. -/
theorem isOwned_characterization (ownedIngredients : List String) (ingredientName : String)
    (h : ∀ o ∈ ownedIngredients, jsToLowerCase o = o) :
    (isOwned ownedIngredients ingredientName = true ↔
      ∃ o ∈ ownedIngredients,
        jsIncludes (jsToLowerCase ingredientName) (jsToLowerCase o) = true) ∧
    ∀ otherName, jsToLowerCase otherName = jsToLowerCase ingredientName →
      isOwned ownedIngredients otherName = isOwned ownedIngredients ingredientName := by
  constructor
  · unfold isOwned
    rw [List.any_eq_true]
    constructor
    · rintro ⟨o, ho, hinc⟩
      exact ⟨o, ho, by rw [h o ho]; exact hinc⟩
    · rintro ⟨o, ho, hinc⟩
      rw [h o ho] at hinc
      exact ⟨o, ho, hinc⟩
  · intro otherName hother
    unfold isOwned
    rw [hother]

/-- Claim C8 amended witness: a lowercase identified string matches a name
of different casing. -/
theorem isOwned_characterization_witness :
    isOwned ["milk"] "MIlk" = true := by
  have h := isOwned_characterization ["milk"] "MIlk" (by decide)
  exact h.1.mpr ⟨"milk", by decide, by decide⟩

/-! ## Claim C10 -/

/-- Replace the reported mime type of every inline payload, leaving all
other response content unchanged. -/
def setMimeType (f : String → String) (part : ResponsePart) : ResponsePart :=
  { part with inlineData := part.inlineData.map (fun d => { d with mimeType := f d.mimeType }) }

theorem firstInlineData_setMimeType (f : String → String) (parts : List ResponsePart) :
    firstInlineData (parts.map (setMimeType f))
      = (firstInlineData parts).map (fun d => { d with mimeType := f d.mimeType }) := by
  induction parts with
  | nil => rfl
  | cons p ps ih =>
    cases hp : p.inlineData with
    | none => simp [firstInlineData, setMimeType, hp, ih]
    | some d => simp [firstInlineData, setMimeType, hp]

/-- Claim C10: when the response holds at least one part with inline data,
generateRecipeImage returns the data of the first such part behind the
literal prefix data:image/png;base64, and the result is unchanged under any
rewriting of the reported mime types, so the prefix is used regardless of
the mime type actually reported. -/
theorem generateRecipeImage_first_inline_png_prefix (recipeName : String)
    (parts : List ResponsePart) (f : String → String) :
    generateRecipeImage recipeName (Except.ok (parts.map (setMimeType f)))
      = generateRecipeImage recipeName (Except.ok parts) ∧
    ∀ d, firstInlineData parts = some d →
      generateRecipeImage recipeName (Except.ok parts)
        = Except.ok ("data:image/png;base64," ++ d.data) := by
  constructor
  · simp only [generateRecipeImage]
    rw [firstInlineData_setMimeType]
    cases firstInlineData parts with
    | none => rfl
    | some d => rfl
  · intro d hd
    simp only [generateRecipeImage, hd]

/-- Claim C10 witness: a response whose first inline payload reports a jpeg
mime type still comes back as a png data URI. -/
theorem generateRecipeImage_first_inline_png_prefix_witness :
    generateRecipeImage "Cheese Omelette"
        (Except.ok [⟨some "here it is", none⟩, ⟨none, some ⟨"QUJD", "image/jpeg"⟩⟩])
      = Except.ok "data:image/png;base64,QUJD" := by
  have h := generateRecipeImage_first_inline_png_prefix "Cheese Omelette"
    [⟨some "here it is", none⟩, ⟨none, some ⟨"QUJD", "image/jpeg"⟩⟩] id
  exact (h.2 ⟨"QUJD", "image/jpeg"⟩ rfl).trans (congrArg Except.ok (by decide))

/-! ## Pipeline lemmas -/

theorem generateRecipeImage_ok_of_synthOk (recipeName : String)
    (serviceCall : Except String (List ResponsePart))
    (h : imageSynthesisOk serviceCall = true) :
    ∃ u, generateRecipeImage recipeName serviceCall = Except.ok u := by
  cases serviceCall with
  | error e => exact absurd h (by simp [imageSynthesisOk])
  | ok parts =>
    cases hf : firstInlineData parts with
    | none => simp [imageSynthesisOk, hf] at h
    | some d =>
      exact ⟨"data:image/png;base64," ++ d.data, by simp only [generateRecipeImage, hf]⟩

theorem generateRecipeImage_error_of_synthFail (recipeName : String)
    (serviceCall : Except String (List ResponsePart))
    (h : imageSynthesisOk serviceCall = false) :
    ∃ e, generateRecipeImage recipeName serviceCall = Except.error e := by
  cases serviceCall with
  | error e =>
    exact ⟨"Failed to generate an image for the recipe: " ++ recipeName ++ ".",
      by simp only [generateRecipeImage]⟩
  | ok parts =>
    cases hf : firstInlineData parts with
    | none =>
      exact ⟨"Failed to generate an image for the recipe: " ++ recipeName ++ ".",
        by simp only [generateRecipeImage, hf]⟩
    | some d => simp [imageSynthesisOk, hf] at h

theorem recipesWithImages_getElem? (env : GatewayEnv) (generatedRecipes : List Recipe)
    (i : Nat) :
    (recipesWithImages env generatedRecipes)[i]?
      = (generatedRecipes[i]?).map (fun recipe =>
          match generateRecipeImage recipe.name (env.imageResp i) with
          | .ok imageUrl => { recipe with imageUrl := some imageUrl }
          | .error _ => recipe) := by
  simp [recipesWithImages, List.getElem?_mapIdx]

theorem length_recipesWithImages (env : GatewayEnv) (generatedRecipes : List Recipe) :
    (recipesWithImages env generatedRecipes).length = generatedRecipes.length := by
  simp [recipesWithImages]

/-! ## Claim C1 -/

/-- Claim C1: when ingredient extraction and recipe generation succeed and,
of the N image synthesis calls, exactly the one at position k fails, the
pipeline still reaches the results state with no error, delivering a list of
all N recipes - same names at every position - of which the N-1 at
positions other than k carry an image reference and the one at k lacks one.
The per-recipe image synthesis failure never reaches the caller: the run
ends in the non-error branch. -/
theorem pipeline_single_image_failure (env : GatewayEnv) (ingredients : List String)
    (generatedRecipes : List Recipe) (k : Nat)
    (hana : analyzeFridgeContents env.analyzeResp = Except.ok ingredients)
    (hrec : env.recipesResp ingredients = Except.ok generatedRecipes)
    (hfresh : ∀ r ∈ generatedRecipes, r.imageUrl = none)
    (hk : k < generatedRecipes.length)
    (hfail : imageSynthesisOk (env.imageResp k) = false)
    (hsucc : ∀ i, i < generatedRecipes.length → i ≠ k →
      imageSynthesisOk (env.imageResp i) = true) :
    ∃ finalRecipes,
      handleImageUpload env = ⟨"results", none, some finalRecipes⟩ ∧
      finalRecipes.length = generatedRecipes.length ∧
      (∀ i : Nat, (finalRecipes[i]?).map Recipe.name
        = (generatedRecipes[i]?).map Recipe.name) ∧
      (∀ (i : Nat) (r' : Recipe), finalRecipes[i]? = some r' → i ≠ k →
        ∃ u, r'.imageUrl = some u) ∧
      (∀ r' : Recipe, finalRecipes[k]? = some r' → r'.imageUrl = none) := by
  refine ⟨recipesWithImages env generatedRecipes, ?_, length_recipesWithImages env _, ?_, ?_, ?_⟩
  · simp only [handleImageUpload, hana, hrec]
  · intro i
    rw [recipesWithImages_getElem?]
    cases hg : generatedRecipes[i]? with
    | none => rfl
    | some r0 =>
      simp only [Option.map_some']
      congr 1
      cases generateRecipeImage r0.name (env.imageResp i) <;> rfl
  · intro i r' hr' hik
    rw [recipesWithImages_getElem?] at hr'
    cases hg : generatedRecipes[i]? with
    | none => rw [hg] at hr'; cases hr'
    | some r0 =>
      rw [hg, Option.map_some'] at hr'
      have hi : i < generatedRecipes.length := by
        by_contra hlt
        rw [List.getElem?_eq_none (Nat.le_of_not_lt hlt)] at hg
        cases hg
      obtain ⟨u, hu⟩ := generateRecipeImage_ok_of_synthOk r0.name (env.imageResp i)
        (hsucc i hi hik)
      rw [hu] at hr'
      cases hr'
      exact ⟨u, rfl⟩
  · intro r' hr'
    rw [recipesWithImages_getElem?] at hr'
    cases hg : generatedRecipes[k]? with
    | none => rw [hg] at hr'; cases hr'
    | some r0 =>
      rw [hg, Option.map_some'] at hr'
      obtain ⟨e, he⟩ := generateRecipeImage_error_of_synthFail r0.name (env.imageResp k) hfail
      rw [he] at hr'
      cases hr'
      exact hfresh r0 (List.getElem?_mem hg)

/-- A concrete generated recipe used by witnesses. -/
def cheeseOmelette : Recipe :=
  { name := "Cheese Omelette", difficulty := "Easy", prepTime := "10 minutes",
    calories := 300, ingredients := [⟨"eggs", "3"⟩, ⟨"cheddar cheese", "50 g"⟩],
    instructions := ["Beat the eggs.", "Cook the omelette."] }

/-- A second concrete generated recipe used by witnesses. -/
def gardenSalad : Recipe :=
  { name := "Garden Salad", difficulty := "Easy", prepTime := "5 minutes",
    calories := 150, ingredients := [⟨"lettuce", "1 head"⟩],
    instructions := ["Mix everything."] }

/-- Claim C1 witness: two generated recipes, image synthesis fails for the
first and succeeds for the second. -/
theorem pipeline_single_image_failure_witness :
    ∃ finalRecipes,
      handleImageUpload
          ⟨Except.ok (some "eggs, milk"),
           fun _ => Except.ok [cheeseOmelette, gardenSalad],
           fun i => if i = 0 then Except.ok []
             else Except.ok [⟨none, some ⟨"QUJD", "image/png"⟩⟩]⟩
        = ⟨"results", none, some finalRecipes⟩ ∧
      finalRecipes.length = 2 ∧
      (∀ i : Nat, (finalRecipes[i]?).map Recipe.name
        = (([cheeseOmelette, gardenSalad] : List Recipe)[i]?).map Recipe.name) ∧
      (∀ (i : Nat) (r' : Recipe), finalRecipes[i]? = some r' → i ≠ 0 →
        ∃ u, r'.imageUrl = some u) ∧
      (∀ r' : Recipe, finalRecipes[0]? = some r' → r'.imageUrl = none) :=
  pipeline_single_image_failure _ ["eggs", "milk"] [cheeseOmelette, gardenSalad] 0
    rfl rfl (by decide) (by decide) rfl (by decide)

/-! ## Claim C2 -/

/-- Claim C2: if ingredient extraction fails, or extraction succeeds and
recipe generation fails, the first-time acquisition flow ends back on the
initial screen with an error set, and the recipe list is never written - in
particular no partial result reaches the presentation layer. -/
theorem acquisition_all_or_nothing (env : GatewayEnv)
    (h : (∃ e, analyzeFridgeContents env.analyzeResp = Except.error e) ∨
         (∃ ingredients e, analyzeFridgeContents env.analyzeResp = Except.ok ingredients ∧
           env.recipesResp ingredients = Except.error e)) :
    (handleImageUpload env).appState = "initial" ∧
    (handleImageUpload env).errorMsg.isSome = true ∧
    (handleImageUpload env).recipesSet = none := by
  rcases h with ⟨e, he⟩ | ⟨ingredients, e, hok, herr⟩
  · simp only [handleImageUpload, he]
    exact ⟨trivial, rfl, trivial⟩
  · simp only [handleImageUpload, hok, herr]
    exact ⟨trivial, rfl, trivial⟩

/-- Claim C2 witness: a run whose extraction call raises. -/
theorem acquisition_all_or_nothing_witness :
    (handleImageUpload ⟨Except.error "network down", fun _ => Except.ok [],
        fun _ => Except.ok []⟩).appState = "initial" ∧
    (handleImageUpload ⟨Except.error "network down", fun _ => Except.ok [],
        fun _ => Except.ok []⟩).errorMsg.isSome = true ∧
    (handleImageUpload ⟨Except.error "network down", fun _ => Except.ok [],
        fun _ => Except.ok []⟩).recipesSet = none :=
  acquisition_all_or_nothing _
    (Or.inl ⟨"Failed to analyze image with Gemini API.", rfl⟩)

/-! ## Claim C9 -/

/-- Claim C9: the image attachment step changes at most the imageUrl field.
Position by position, every recipe in the pipeline final list agrees with
the corresponding generated recipe on name, difficulty, prepTime, calories,
ingredients and instructions, whether its image synthesis succeeded or
failed. -/
theorem recipesWithImages_frame (env : GatewayEnv) (generatedRecipes : List Recipe) :
    List.Forall₂ (fun r r' =>
        r'.name = r.name ∧ r'.difficulty = r.difficulty ∧ r'.prepTime = r.prepTime ∧
        r'.calories = r.calories ∧ r'.ingredients = r.ingredients ∧
        r'.instructions = r.instructions)
      generatedRecipes (recipesWithImages env generatedRecipes) := by
  rw [List.forall₂_iff_get]
  refine ⟨(length_recipesWithImages env generatedRecipes).symm, ?_⟩
  intro i h1 h2
  simp only [List.get_eq_getElem, recipesWithImages, List.getElem_mapIdx]
  cases generateRecipeImage generatedRecipes[i].name (env.imageResp i) <;>
    exact ⟨rfl, rfl, rfl, rfl, rfl, rfl⟩

/-! ## Narration machine invariant -/

/-- Inductive invariant of the narration machine: the step index never
exceeds the number of instructions, and a queued utterance always belongs to
the current step, which is then a valid step position. -/
def NarrInv (r : Recipe) (s : NarrState) : Prop :=
  s.currentStepIndex ≤ r.instructions.length ∧
  ∀ i, s.utterance = some i → s.currentStepIndex = i ∧ i < r.instructions.length

theorem runNarrationEffect_inv (r : Recipe) (s : NarrState) (h : NarrInv r s) :
    NarrInv r (runNarrationEffect r s) := by
  obtain ⟨h1, h2⟩ := h
  unfold runNarrationEffect
  split
  · rename_i hc
    unfold speakStep stopSpeaking synthCancel
    split <;>
    · dsimp only
      refine ⟨h1, fun i hi => ?_⟩
      cases hi
      exact ⟨rfl, hc.2⟩
  · exact ⟨h1, h2⟩

theorem handlePlayPause_inv (r : Recipe) (s : NarrState) (h : NarrInv r s) :
    NarrInv r (handlePlayPause r s) := by
  obtain ⟨h1, h2⟩ := h
  unfold handlePlayPause
  split
  · exact ⟨h1, fun i hi => h2 i hi⟩
  · split
    · exact ⟨h1, fun i hi => h2 i hi⟩
    · split
      · rename_i hge
        dsimp only
        refine ⟨Nat.zero_le _, fun i hi => ?_⟩
        obtain ⟨e1, e2⟩ := h2 i hi
        omega
      · exact ⟨h1, fun i hi => h2 i hi⟩

theorem handleStop_inv (r : Recipe) (s : NarrState) :
    NarrInv r (handleStop s) := by
  cases s with
  | mk sp idx utt pau reqs =>
    cases utt <;> exact ⟨Nat.zero_le _, fun i hi => nomatch hi⟩

theorem onUtteranceEnd_inv (r : Recipe) (s : NarrState) (h : NarrInv r s) :
    NarrInv r (onUtteranceEnd r s) := by
  obtain ⟨h1, h2⟩ := h
  unfold onUtteranceEnd
  split
  · exact ⟨h1, h2⟩
  · rename_i i hi
    split
    · exact ⟨h1, h2⟩
    · obtain ⟨e1, e2⟩ := h2 i hi
      split
      · rename_i hlt
        refine ⟨?_, fun j hj => nomatch hj⟩
        show s.currentStepIndex + 1 ≤ r.instructions.length
        omega
      · exact ⟨h1, fun j hj => nomatch hj⟩

theorem narrStep_inv (r : Recipe) (s : NarrState) (e : NarrEvent) (h : NarrInv r s) :
    NarrInv r (narrStep r s e) := by
  cases e with
  | playPause => exact runNarrationEffect_inv r _ (handlePlayPause_inv r s h)
  | stopButton => exact runNarrationEffect_inv r _ (handleStop_inv r s)
  | utteranceEnd => exact runNarrationEffect_inv r _ (onUtteranceEnd_inv r s h)

theorem narrRun_inv (r : Recipe) (events : List NarrEvent) :
    NarrInv r (narrRun r events) := by
  have hfold : ∀ (es : List NarrEvent) (s : NarrState), NarrInv r s →
      NarrInv r (es.foldl (narrStep r) s) := by
    intro es
    induction es with
    | nil => exact fun s hs => hs
    | cons e es ih => exact fun s hs => ih _ (narrStep_inv r s e hs)
  exact hfold events initialNarrState ⟨Nat.zero_le _, fun i hi => nomatch hi⟩

/-! ## Claim C4 -/

/-- Claim C4: for every recipe and every sequence of narration transitions
(play or pause clicks, stop clicks, natural utterance completions) from the
initial state, the step index stays within zero and the number of
instructions inclusive. -/
theorem narration_step_index_invariant (r : Recipe) (events : List NarrEvent) :
    0 ≤ (narrRun r events).currentStepIndex ∧
    (narrRun r events).currentStepIndex ≤ r.instructions.length :=
  ⟨Nat.zero_le _, (narrRun_inv r events).1⟩

/-! ## Claim C5 -/

/-- A concrete recipe with two instruction steps, used by the narration
counterexample and witnesses. -/
def twoStepRecipe : Recipe :=
  { name := "Cheese Omelette", difficulty := "Easy", prepTime := "10 minutes",
    calories := 300, ingredients := [⟨"eggs", "3"⟩],
    instructions := ["Beat the eggs.", "Cook the omelette."] }

/-- Claim C5 counterexample: on a two step recipe, after both steps have
been narrated to natural completion (the two utteranceEnd events), the step
index stands at 1, not at instructions.length = 2, because the completion
callback only advances while the captured index is below length minus one
(RecipeModal.tsx lines 36-40).  The next play therefore finds the index
below length, skips the reset of lines 57-59, and issues the narration
request for step 1 again - the request log ends [0, 1, 1] - instead of
restarting from step 0 as the claim states. -/
theorem narration_restart_counterexample :
    narrRun twoStepRecipe
        [NarrEvent.playPause, NarrEvent.utteranceEnd, NarrEvent.playPause,
         NarrEvent.utteranceEnd, NarrEvent.playPause]
      = ⟨false, 1, some 1, false, [0, 1, 1]⟩ ∧
    narrRun twoStepRecipe
        [NarrEvent.playPause, NarrEvent.utteranceEnd, NarrEvent.playPause,
         NarrEvent.utteranceEnd]
      = ⟨false, 1, none, false, [0, 1]⟩ := by
  constructor <;> rfl

/-- Claim C5 amended: the state reached when narration of every instruction
has finished naturally carries step index instructions.length - 1, not
instructions.length.  From that state a play action re-narrates the final
step: it queues a fresh utterance for index length - 1 and appends that
index to the request log.  It restarts from step 0 only when the recipe has
exactly one instruction, since the restart branch of the source fires only
for an index at or beyond instructions.length, which natural completion
never produces. -/
theorem narration_play_after_natural_completion (r : Recipe) (reqs : List Nat)
    (h : 1 ≤ r.instructions.length) :
    narrStep r ⟨false, r.instructions.length - 1, none, false, reqs⟩ NarrEvent.playPause
      = ⟨false, r.instructions.length - 1, some (r.instructions.length - 1), false,
         reqs ++ [r.instructions.length - 1]⟩ := by
  have h1 : ¬ (r.instructions.length ≤ r.instructions.length - 1) := by omega
  have h2 : r.instructions.length - 1 < r.instructions.length := by omega
  simp [narrStep, handlePlayPause, runNarrationEffect, stopSpeaking, synthCancel,
    speakStep, h1, h2]

/-- Claim C5 amended witness: the two step recipe at the state after full
natural completion. -/
theorem narration_play_after_natural_completion_witness :
    narrStep twoStepRecipe ⟨false, 1, none, false, [0, 1]⟩ NarrEvent.playPause
      = ⟨false, 1, some 1, false, [0, 1, 1]⟩ :=
  narration_play_after_natural_completion twoStepRecipe [0, 1] (by decide)

/-! ## Claim C6 -/

/-- Claim C6: from a paused configuration for step i (a suspended utterance
for step i, paused synthesizer, step index i), a play action yields a
configuration whose active utterance is a freshly issued one for the same
step i: the handler calls the native resume (line 55), but the effect hook
then cancels the resumed utterance and submits the narration request for
step i anew, so the request log grows by i and the spoken text is
re-synthesized from scratch rather than continued mid-sentence.  (The spec
level Speaking(i) is the configuration with an active, unpaused utterance
for step i; the React isSpeaking flag itself is reset by the effect, source
line 21, and only drives the icon.) -/
theorem narration_resume_reissues_request (r : Recipe) (i : Nat) (reqs : List Nat)
    (h : i < r.instructions.length) :
    narrStep r ⟨false, i, some i, true, reqs⟩ NarrEvent.playPause
      = ⟨false, i, some i, false, reqs ++ [i]⟩ := by
  simp [narrStep, handlePlayPause, runNarrationEffect, stopSpeaking, synthCancel,
    speakStep, h]

/-- Claim C6 witness: pause during step 0 of the two step recipe, then play. -/
theorem narration_resume_reissues_request_witness :
    narrStep twoStepRecipe ⟨false, 0, some 0, true, [0]⟩ NarrEvent.playPause
      = ⟨false, 0, some 0, false, [0, 0]⟩ :=
  narration_resume_reissues_request twoStepRecipe 0 [0] (by decide)
